import Mathlib

/-!
Verification of the dagster CLI pipeline module
(src/python_modules/dagster/dagster/cli/pipeline.py): the topology
printer (print_pipeline, list_command, format_argument_dict) and the
result-stream consumer plus metrics reporter
(process_results_for_console, print_metrics_to_console), embedded as
pure Lean functions over read-only views of the pipeline data model.
Printing side effects (printer/click.echo calls) are embedded as the
list of emitted lines; the scoped error log (context.error calls) as a
list of (message, solid name) pairs; click's Context.exit, which raises
(SystemExit in click 6, click.exceptions.Exit later) and therefore
terminates process_results_for_console on the spot, as a terminal
outcome carrying the exit code.
-/

/-- The dagster_type of an argument definition; only its name is read
by the formatter (arg_def.dagster_type.name). -/
structure DagsterType where
  name : String
deriving DecidableEq

/-- An argument definition as read by format_argument_dict. -/
structure ArgumentDef where
  dagster_type : DagsterType
deriving DecidableEq

/-- A source definition as read by print_pipeline: source_type and the
ordered argument dictionary (Python dicts preserve insertion order, so
argument_def_dict is embedded as an ordered association list). -/
structure SourceDefinition where
  source_type : String
  argument_def_dict : List (String × ArgumentDef)
deriving DecidableEq

/-- A materialization definition as read by print_pipeline. -/
structure MaterializationDefinition where
  name : String
  argument_def_dict : List (String × ArgumentDef)
deriving DecidableEq

/-- The upstream dependency of an input; only its name is read
(input_def.depends_on.name). -/
structure SolidRef where
  name : String
deriving DecidableEq

/-- An input definition as read by print_pipeline: name, optional
upstream producer, and the list of alternative sources. -/
structure InputDefinition where
  name : String
  depends_on : Option SolidRef
  sources : List SourceDefinition
deriving DecidableEq

/-- An output definition; print_pipeline reads only its
materializations. -/
structure OutputDefinition where
  materializations : List MaterializationDefinition
deriving DecidableEq

/-- A solid definition as read by the printers: name, ordered inputs,
one output. -/
structure SolidDefinition where
  name : String
  inputs : List InputDefinition
  output : OutputDefinition
deriving DecidableEq

/-- A pipeline definition as read by the printers: name, optional
description, ordered solids. -/
structure PipelineDefinition where
  name : String
  description : Option String
  solids : List SolidDefinition
deriving DecidableEq

/-- Modelled from the spec: pipeline.solid_graph.topological_solids is
computed by SolidGraph in dagster.core, which is not under src/; per
the spec, PipelineView.solids is already an ordered sequence "in
dependency (topological) execution order", so the topological traversal
used by list_command is the solids sequence itself. -/
def topological_solids (pipeline : PipelineDefinition) : List SolidDefinition :=
  pipeline.solids

/-- Python's str() applied to an optional string, as used by
'{desc}'.format(desc=pipeline.description): str(None) is the string
"None". -/
def py_str_opt : Option String → String
  | none => "None"
  | some s => s

/-- format_argument_dict: ', '.join of 'name: type' entries over the
argument dictionary in insertion order. -/
def format_argument_dict (arg_def_dict : List (String × ArgumentDef)) : String :=
  String.intercalate (", ")
    (arg_def_dict.map (fun p => p.1 ++ ": " ++ p.2.dagster_type.name))

/-- The line printed for one source_def in print_pipeline's sources
loop: indent*5 then source_type(arg_list). -/
def render_source (source_def : SourceDefinition) : String :=
  "                    " ++ source_def.source_type ++ "(" ++
    format_argument_dict source_def.argument_def_dict ++ ")"

/-- The lines printed for one input_def in print_pipeline's inputs
loop: the Name line (with the depends-on suffix when input_def
.depends_on is set), then — whenever input_def.sources is nonempty,
Python list truthiness — the Sources: header and one line per source. -/
def render_input (input_def : InputDefinition) : List String :=
  (match input_def.depends_on with
   | some dep =>
       "            Name: " ++ input_def.name ++ " (depends on " ++ dep.name ++ ")"
   | none => "            Name: " ++ input_def.name)
  :: (if input_def.sources.isEmpty then []
      else "                Sources:" :: input_def.sources.map render_source)

/-- The line printed for one materialization_def in print_pipeline:
indent*4 then name(arg_list). -/
def render_materialization (m : MaterializationDefinition) : String :=
  "                " ++ m.name ++ "(" ++ format_argument_dict m.argument_def_dict ++ ")"

/-- The lines printed for one solid in print_pipeline's main loop:
Solid header, unconditional Inputs: header, the input blocks,
unconditional Output: and Materializations: headers, then one line per
materialization. -/
def render_solid (solid : SolidDefinition) : List String :=
  ("    Solid: " ++ solid.name)
  :: "        Inputs:"
  :: (solid.inputs.flatMap render_input
      ++ "        Output:"
      :: "            Materializations:"
      :: solid.output.materializations.map render_materialization)

/-- print_pipeline: the header line 'Pipeline: {name} Description:
{desc}' is printed unconditionally; when full is false the function
returns right after it; otherwise each solid's block follows in
pipeline.solids order. -/
def print_pipeline (pipeline : PipelineDefinition) (full : Bool) : List String :=
  ("Pipeline: " ++ pipeline.name ++ " Description: " ++ py_str_opt pipeline.description)
  :: (if full then pipeline.solids.flatMap render_solid else [])

/-- Python truthiness of pipeline.description in list_command's
'if pipeline.description:': None and the empty string are falsy. -/
def desc_truthy : Option String → Bool
  | none => false
  | some s => !s.isEmpty

/-- The body of list_command for one pipeline: the Pipeline line, the
Description block when the description is truthy, the Solids header,
one indented line per solid of solid_graph.topological_solids, and the
separator. format_description (textwrap dedent + fill with 4-space
indents) is abstracted as the function parameter format_description,
since its output depends only on the description text. -/
def list_command (format_description : String → String)
    (pipeline : PipelineDefinition) : List String :=
  ("Pipeline: " ++ pipeline.name)
  :: ((match pipeline.description with
       | none => []
       | some d => if d.isEmpty then [] else ["Description:", format_description d])
      ++ ("Solids: (Execution Order)"
          :: ((topological_solids pipeline).map (fun s => "    " ++ s.name)
              ++ ["*************"])))

/-- A failed expectation result; process_results_for_console reads only
its message. -/
structure ExpectationResult where
  message : String
deriving DecidableEq

/-- The user exception carried by a failed result; opaque to this
module, re-raised verbatim, so only its identity matters. -/
structure UserException where
  message : String
deriving DecidableEq

/-- Modelled from the spec: DagsterExecutionFailureReason is imported
from dagster.core.execution, which is not under src/. The spec defines
the values USER_CODE_ERROR and EXPECTATION_FAILURE and separately
speaks of receiving an unknown failure-reason value from the engine, so
the constructor other stands for any value distinct from the two the
consumer's if/elif compares against. -/
inductive FailureReason where
  | user_code_error
  | expectation_failure
  | other
deriving DecidableEq

/-- One metric record of the execution context's store: name, rendered
value, and its immutable ordered context tags. -/
structure MetricRecord where
  metric_name : String
  value : String
  context_tags : List (String × String)
deriving DecidableEq

/-- The per-result execution context, reduced to the part this module
reads: the metric store, as the ordered list the store returns. -/
structure Context where
  metrics : List MetricRecord
deriving DecidableEq

/-- Modelled from the spec: the matches predicate of
context.metrics_matching_context (ExecutionContext is not under src/):
tags and query are equal as mappings — every pair of each is bound in
the other. -/
def tags_match (tags query : List (String × String)) : Bool :=
  tags.all (fun kv => List.lookup kv.1 query == some kv.2) &&
    query.all (fun kv => List.lookup kv.1 tags == some kv.2)

/-- Modelled from the spec: the covers predicate of
context.metrics_covering_context (ExecutionContext is not under src/):
every key/value pair in the query is present in the tags. -/
def tags_cover (tags query : List (String × String)) : Bool :=
  query.all (fun kv => List.lookup kv.1 tags == some kv.2)

/-- Modelled from the spec: context.metrics_matching_context returns
the store's metrics whose tags match the query exactly, in store
order. -/
def metrics_matching_context (context : Context)
    (query : List (String × String)) : List MetricRecord :=
  context.metrics.filter (fun m => tags_match m.context_tags query)

/-- Modelled from the spec: context.metrics_covering_context returns
the store's metrics whose tags cover the query, in store order. -/
def metrics_covering_context (context : Context)
    (query : List (String × String)) : List MetricRecord :=
  context.metrics.filter (fun m => tags_cover m.context_tags query)

/-- An execution result as read by the consumer and the reporter. The
reason, user_exception and failed_expectation_results fields are read
only on the paths the code reads them (reason only when success is
false, and so on). -/
structure ExecutionResult where
  success : Bool
  reason : FailureReason
  user_exception : UserException
  failed_expectation_results : List ExpectationResult
  context : Context
  solid : SolidDefinition
  name : String
deriving DecidableEq

/-- The lines print_metrics_to_console emits for one result: the
metrics_matching_context query for the bare solid tag is evaluated
first but printed last; the header comes first, then per input of the
result's solid, in declared order, an Input block only when the
covering query is nonempty. -/
def print_metrics_for_result (result : ExecutionResult) : List String :=
  let metrics_of_solid := metrics_matching_context result.context [("solid", result.name)]
  ("Metrics for " ++ result.name)
  :: (result.solid.inputs.flatMap (fun input_def =>
        let metrics_for_input :=
          metrics_covering_context result.context
            [("solid", result.name), ("input", input_def.name)]
        if metrics_for_input.isEmpty then []
        else ("    Input " ++ input_def.name)
          :: metrics_for_input.map
               (fun metric => "        " ++ metric.metric_name ++ ": " ++ metric.value))
      ++ metrics_of_solid.map
           (fun metric => "    " ++ metric.metric_name ++ ": " ++ metric.value))

/-- print_metrics_to_console: the report for each accumulated result in
order. -/
def print_metrics_to_console (results : List ExecutionResult) : List String :=
  results.flatMap print_metrics_for_result

/-- How a run of process_results_for_console terminates: normal return
after printing the report, click Context.exit (which raises, ending the
function where it is called), or a re-raised user exception. -/
inductive RunOutcome where
  | completed (printed : List String)
  | exited (code : Nat)
  | raised (exn : UserException)
deriving DecidableEq

/-- The observable effects of one run of process_results_for_console:
terminal outcome, the accumulated results list at termination, and the
scoped error log (message, solid name) from context.error calls. -/
structure ConsoleEffects where
  outcome : RunOutcome
  results : List ExecutionResult
  error_log : List (String × String)
deriving DecidableEq

/-- The for-loop of process_results_for_console over the remaining
stream, carrying the accumulated results and the error log. A failed
result with reason USER_CODE_ERROR re-raises its user_exception; one
with reason EXPECTATION_FAILURE logs one scoped error per failed
expectation and then calls click Context.exit(1), which raises, so the
append below the if block is never reached; every other result —
successes and failures with any other reason — falls through to
results.append and the loop continues. -/
def process_results_loop :
    List ExecutionResult → List ExecutionResult → List (String × String) → ConsoleEffects
  | [], results, log =>
      ⟨RunOutcome.completed (print_metrics_to_console results), results, log⟩
  | result :: rest, results, log =>
      if result.success then process_results_loop rest (results ++ [result]) log
      else
        match result.reason with
        | FailureReason.user_code_error =>
            ⟨RunOutcome.raised result.user_exception, results, log⟩
        | FailureReason.expectation_failure =>
            ⟨RunOutcome.exited 1, results,
              log ++ result.failed_expectation_results.map
                (fun e => (e.message, result.solid.name))⟩
        | FailureReason.other => process_results_loop rest (results ++ [result]) log

/-- process_results_for_console: run the loop from an empty accumulator
and empty log; on normal exhaustion print_metrics_to_console renders
the report over the accumulated results. -/
def process_results_for_console (pipeline_iter : List ExecutionResult) : ConsoleEffects :=
  process_results_loop pipeline_iter [] []

/-- Draining a prefix of results that all succeed only moves them, in
order, onto the accumulator: the loop continues on the rest of the
stream. -/
theorem process_results_loop_success_run
    (pre rest : List ExecutionResult) :
    ∀ acc log, (∀ x ∈ pre, x.success = true) →
      process_results_loop (pre ++ rest) acc log =
        process_results_loop rest (acc ++ pre) log := by
  induction pre with
  | nil => intro acc log _; simp
  | cons x xs ih =>
      intro acc log h
      have hx : x.success = true := h x (List.mem_cons_self x xs)
      simp only [List.cons_append, process_results_loop, hx, if_true, List.append_eq]
      rw [ih (acc ++ [x]) log (fun y hy => h y (List.mem_cons_of_mem x hy))]
      simp

/-- Fixture: a context with an empty metric store. -/
def emptyContext : Context := ⟨[]⟩

/-- Fixture: a solid named A with no inputs and no materializations. -/
def solidA : SolidDefinition := ⟨"A", [], ⟨[]⟩⟩

/-- Fixture: a successful result for solid A. -/
def okA : ExecutionResult :=
  ⟨true, FailureReason.other, ⟨"unused"⟩, [], emptyContext, solidA, "A"⟩

/-- Fixture: a failed result for solid A with reason
EXPECTATION_FAILURE and one failed expectation. -/
def expectationFailureA : ExecutionResult :=
  ⟨false, FailureReason.expectation_failure, ⟨"unused"⟩,
    [⟨"row count below threshold"⟩], emptyContext, solidA, "A"⟩

/-- Fixture: a failed result for solid A with reason USER_CODE_ERROR
carrying a user exception. -/
def userCodeFailureA : ExecutionResult :=
  ⟨false, FailureReason.user_code_error, ⟨"boom"⟩, [], emptyContext, solidA, "A"⟩

/-- Fixture: a failed result for solid A whose reason is neither
USER_CODE_ERROR nor EXPECTATION_FAILURE. -/
def otherFailureA : ExecutionResult :=
  ⟨false, FailureReason.other, ⟨"unused"⟩, [], emptyContext, solidA, "A"⟩

/-- C1: the claim fails on the code at the stream consisting of one
expectation-failure result (k = 0): the claim demands an accumulated
sequence of k+1 = 1 results and a rendered metrics report, but
Context.exit(1) raises before results.append, so the accumulated
sequence holds 0 results and the run terminates as exited 1 without
ever reaching print_metrics_to_console; only the scoped error log is
produced. -/
theorem C1_counterexample :
    (process_results_for_console [expectationFailureA]).results.length = 0 ∧
    (process_results_for_console [expectationFailureA]).outcome = RunOutcome.exited 1 ∧
    (process_results_for_console [expectationFailureA]).error_log =
      [("row count below threshold", "A")] :=
  ⟨rfl, rfl, rfl⟩

/-- C1 (amended): for every result stream whose first k results are
successes and whose result at position k is an expectation failure, the
consumer logs one scoped error per failed-expectation message of that
result, terminates with exit status 1, does not append the failed
result (the accumulated sequence holds exactly the k earlier results),
and renders no metrics report. -/
theorem C1_expectation_failure_aborts
    (pre : List ExecutionResult) (r : ExecutionResult) (rest : List ExecutionResult)
    (hpre : ∀ x ∈ pre, x.success = true)
    (hfail : r.success = false)
    (hreason : r.reason = FailureReason.expectation_failure) :
    process_results_for_console (pre ++ r :: rest) =
      ⟨RunOutcome.exited 1, pre,
        r.failed_expectation_results.map (fun e => (e.message, r.solid.name))⟩ := by
  unfold process_results_for_console
  rw [process_results_loop_success_run pre (r :: rest) [] [] hpre]
  simp [process_results_loop, hfail, hreason]

/-- C1 (amended) at a concrete input: one success then the expectation
failure (k = 1). -/
theorem C1_expectation_failure_aborts_witness :
    process_results_for_console [okA, expectationFailureA] =
      ⟨RunOutcome.exited 1, [okA], [("row count below threshold", "A")]⟩ :=
  C1_expectation_failure_aborts [okA] expectationFailureA [] (by decide) rfl rfl

/-- C2: the claim fails on the code: a failed result whose reason is
neither USER_CODE_ERROR nor EXPECTATION_FAILURE is matched by no branch
of the if/elif, falls through to results.append, and the loop keeps
consuming the stream — here the run completes normally with the
unknown-reason failure accumulated alongside the later success, and a
report is rendered as if nothing happened. -/
theorem C2_counterexample :
    otherFailureA.success = false ∧
    otherFailureA.reason ≠ FailureReason.user_code_error ∧
    otherFailureA.reason ≠ FailureReason.expectation_failure ∧
    (process_results_for_console [otherFailureA, okA]).results = [otherFailureA, okA] ∧
    (process_results_for_console [otherFailureA, okA]).outcome =
      RunOutcome.completed (print_metrics_to_console [otherFailureA, okA]) :=
  ⟨rfl, by decide, by decide, rfl, rfl⟩

/-- C2 (amended): a failed result whose reason is neither
USER_CODE_ERROR nor EXPECTATION_FAILURE is silently appended to the
accumulated sequence and the consumer continues with the rest of the
stream, exactly as for a success. -/
theorem C2_unknown_reason_falls_through
    (acc : List ExecutionResult) (log : List (String × String))
    (r : ExecutionResult) (rest : List ExecutionResult)
    (hfail : r.success = false)
    (h1 : r.reason ≠ FailureReason.user_code_error)
    (h2 : r.reason ≠ FailureReason.expectation_failure) :
    process_results_loop (r :: rest) acc log =
      process_results_loop rest (acc ++ [r]) log := by
  cases hr : r.reason with
  | user_code_error => exact absurd hr h1
  | expectation_failure => exact absurd hr h2
  | other => simp [process_results_loop, hfail, hr]

/-- C2 (amended) at a concrete input. -/
theorem C2_unknown_reason_falls_through_witness :
    process_results_loop [otherFailureA] [] [] =
      process_results_loop [] [otherFailureA] [] :=
  C2_unknown_reason_falls_through [] [] otherFailureA [] rfl (by decide) (by decide)

/-- C3: the claim, which quantifies over every stream containing a
user-code failure at position k, fails on the code when an expectation
failure precedes it: with the expectation failure at position 0 and the
user-code failure at position 1, the consumer exits with status 1 at
position 0 and never re-raises the carried user exception. -/
theorem C3_counterexample :
    (process_results_for_console [expectationFailureA, userCodeFailureA]).outcome =
      RunOutcome.exited 1 ∧
    (process_results_for_console [expectationFailureA, userCodeFailureA]).outcome ≠
      RunOutcome.raised userCodeFailureA.user_exception :=
  ⟨rfl, by decide⟩

/-- C3 (amended): for every result stream whose first k results are
successes and whose result at position k is a user-code failure, the
consumer re-raises the carried user exception, the failed result is not
appended (the accumulator holds only the k earlier successes), no
report is produced (the outcome is raised, not completed), and no
logging side effect occurs at all. -/
theorem C3_user_code_failure_raises
    (pre : List ExecutionResult) (r : ExecutionResult) (rest : List ExecutionResult)
    (hpre : ∀ x ∈ pre, x.success = true)
    (hfail : r.success = false)
    (hreason : r.reason = FailureReason.user_code_error) :
    process_results_for_console (pre ++ r :: rest) =
      ⟨RunOutcome.raised r.user_exception, pre, []⟩ := by
  unfold process_results_for_console
  rw [process_results_loop_success_run pre (r :: rest) [] [] hpre]
  simp [process_results_loop, hfail, hreason]

/-- C3 (amended) at a concrete input: one success then the user-code
failure, with a further result after it that is never consumed. -/
theorem C3_user_code_failure_raises_witness :
    process_results_for_console [okA, userCodeFailureA, okA] =
      ⟨RunOutcome.raised ⟨"boom"⟩, [okA], []⟩ :=
  C3_user_code_failure_raises [okA] userCodeFailureA [okA] (by decide) rfl rfl

/-- C4: for every result stream containing only successful results, the
consumer reaches the completed state, the accumulated sequence equals
the full input sequence element-for-element in production order, and
print_metrics_to_console renders the report over exactly that
sequence. -/
theorem C4_all_success_completed
    (stream : List ExecutionResult)
    (h : ∀ x ∈ stream, x.success = true) :
    process_results_for_console stream =
      ⟨RunOutcome.completed (print_metrics_to_console stream), stream, []⟩ := by
  unfold process_results_for_console
  rw [← List.append_nil stream,
    process_results_loop_success_run stream [] [] [] h]
  simp [process_results_loop]

/-- C4 at a concrete input: a two-success stream. -/
theorem C4_all_success_completed_witness :
    process_results_for_console [okA, okA] =
      ⟨RunOutcome.completed (print_metrics_to_console [okA, okA]), [okA, okA], []⟩ :=
  C4_all_success_completed [okA, okA] (by decide)

/-- Recover the solid name from a rendered line when the line is a
solid header of the full-detail topology output, i.e. exactly four
spaces of indent followed by the Solid: marker. -/
def solidHeaderName (l : String) : Option String :=
  match l.data with
  | ' ' :: ' ' :: ' ' :: ' ' :: 'S' :: 'o' :: 'l' :: 'i' :: 'd' :: ':' :: ' ' :: rest => some (String.mk rest)
  | _ => none

/-- The ordered sequence of solid names rendered by a list of topology
output lines. -/
def renderedSolidNames (lines : List String) : List String :=
  lines.filterMap solidHeaderName

/-- A solid header line parses back to its solid name. -/
theorem solidHeaderName_header (n : String) :
    solidHeaderName ("    Solid: " ++ n) = some n := rfl

/-- The pipeline header line is not a solid header. -/
theorem solidHeaderName_pipeline_header (n d : String) :
    solidHeaderName ("Pipeline: " ++ n ++ " Description: " ++ d) = none := rfl

/-- No line of an input block is a solid header: every such line is
indented at least eight spaces. -/
theorem solidHeaderName_render_input (input_def : InputDefinition) :
    ∀ l ∈ render_input input_def, solidHeaderName l = none := by
  intro l hl
  unfold render_input at hl
  rcases List.mem_cons.mp hl with h | h
  · subst h
    cases input_def.depends_on with
    | none => rfl
    | some dep => rfl
  · rcases hs : input_def.sources.isEmpty with _ | _
    · rw [hs] at h
      simp only [Bool.false_eq_true, if_false] at h
      rcases List.mem_cons.mp h with h | h
      · subst h; rfl
      · obtain ⟨s, _, rfl⟩ := List.mem_map.mp h
        rfl
    · rw [hs] at h
      simp at h

/-- No materialization line is a solid header. -/
theorem solidHeaderName_render_materialization (m : MaterializationDefinition) :
    solidHeaderName (render_materialization m) = none := rfl

/-- A solid's block renders exactly one solid header, carrying that
solid's name. -/
theorem filterMap_solidHeaderName_render_solid (solid : SolidDefinition) :
    List.filterMap solidHeaderName (render_solid solid) = [solid.name] := by
  unfold render_solid
  have hinputs : List.filterMap solidHeaderName (solid.inputs.flatMap render_input) = [] := by
    rw [List.filterMap_eq_nil_iff]
    intro a ha
    obtain ⟨i, _, hai⟩ := List.mem_flatMap.mp ha
    exact solidHeaderName_render_input i a hai
  have hmats : List.filterMap solidHeaderName
      (solid.output.materializations.map render_materialization) = [] := by
    rw [List.filterMap_eq_nil_iff]
    intro a ha
    obtain ⟨m, _, rfl⟩ := List.mem_map.mp ha
    exact solidHeaderName_render_materialization m
  simp [List.filterMap_cons, List.filterMap_append, solidHeaderName_header,
    hinputs, hmats, show solidHeaderName ("        Inputs:") = none from rfl,
    show solidHeaderName ("        Output:") = none from rfl,
    show solidHeaderName ("            Materializations:") = none from rfl]

/-- The blocks of a solid sequence render exactly those solids' names,
in order. -/
theorem filterMap_solidHeaderName_flatMap (solids : List SolidDefinition) :
    List.filterMap solidHeaderName (solids.flatMap render_solid) =
      solids.map (fun s => s.name) := by
  induction solids with
  | nil => rfl
  | cons s ss ih =>
      simp [List.filterMap_append, filterMap_solidHeaderName_render_solid, ih]

/-- C8: for every pipeline view, the sequence of solid names rendered
by the full-detail topology formatter is exactly pipeline.solids in its
given order — the formatter performs no re-sorting and neither adds,
drops, nor duplicates a solid. -/
theorem C8_render_topology_solid_order (pipeline : PipelineDefinition) :
    renderedSolidNames (print_pipeline pipeline true) =
      pipeline.solids.map (fun s => s.name) := by
  unfold renderedSolidNames print_pipeline
  simp [List.filterMap_cons, solidHeaderName_pipeline_header,
    filterMap_solidHeaderName_flatMap]

/-- C10: for every solid of the full-detail topology output, the
Inputs:, Output: and Materializations: section headers are emitted
unconditionally; in particular a solid with zero inputs and zero
materializations still renders all three header lines. -/
theorem C10_section_headers_unconditional (solid : SolidDefinition) :
    (("        Inputs:") ∈ render_solid solid ∧
     ("        Output:") ∈ render_solid solid ∧
     ("            Materializations:") ∈ render_solid solid) ∧
    (solid.inputs = [] → solid.output.materializations = [] →
      render_solid solid =
        [("    Solid: " ++ solid.name), ("        Inputs:"),
         ("        Output:"), ("            Materializations:")]) := by
  constructor
  · refine ⟨?_, ?_, ?_⟩ <;> simp [render_solid]
  · intro h1 h2
    simp [render_solid, h1, h2]

/-- C10 at a concrete input: the empty solid A still renders its three
section headers. -/
theorem C10_section_headers_unconditional_witness :
    render_solid solidA =
      [("    Solid: " ++ solidA.name), ("        Inputs:"),
       ("        Output:"), ("            Materializations:")] :=
  (C10_section_headers_unconditional solidA).2 rfl rfl

/-- Fixture: a pipeline named P with no description and no solids. -/
def pNoDesc : PipelineDefinition := ⟨"P", none, []⟩

/-- Fixture: the same pipeline with a short description. -/
def pShortDesc : PipelineDefinition := ⟨"P", some ("a b"), []⟩

/-- C7: the claim fails on the code: print_pipeline always renders
'Description: {desc}' inline on the header line — with no description
present it still emits the part, as the string None, and with a
description present the text appears on the same line, neither
word-wrapped nor 4-space-indented (format_description is never called
by print_pipeline; only list_command uses it). -/
theorem C7_counterexample :
    pNoDesc.description = none ∧
    print_pipeline pNoDesc true = [("Pipeline: P Description: None")] ∧
    print_pipeline pShortDesc true = [("Pipeline: P Description: a b")] :=
  ⟨rfl, rfl, rfl⟩

/-- C7 (amended): for every pipeline view, the topology output's header
is the single line 'Pipeline: <name> Description: <desc>', with the
description rendered verbatim inline (the string None when absent),
emitted unconditionally and with no wrapping or indentation; in
non-full mode this line is the entire output. -/
theorem C7_header_inline_unconditional (pipeline : PipelineDefinition) (full : Bool) :
    (print_pipeline pipeline full).head? =
      some ("Pipeline: " ++ pipeline.name ++ " Description: " ++
        py_str_opt pipeline.description) ∧
    print_pipeline pipeline false =
      [("Pipeline: " ++ pipeline.name ++ " Description: " ++
        py_str_opt pipeline.description)] := by
  constructor <;> simp [print_pipeline]

/-- Fixture: a CSV source with one argument path of type PathType. -/
def srcCSV : SourceDefinition := ⟨"CSV", [("path", ⟨⟨"PathType"⟩⟩)]⟩

/-- Fixture: an input that both depends on an upstream solid A and
declares one alternative source. -/
def inputBoth : InputDefinition := ⟨"in1", some ⟨"A"⟩, [srcCSV]⟩

/-- C6: the claim fails on the code: the sources block is guarded only
by the sources list being nonempty, not by the absence of an upstream
producer, so an input that depends on solid A and declares a source
gets both the depends-on line and the Sources: block. -/
theorem C6_counterexample :
    inputBoth.depends_on = some ⟨"A"⟩ ∧
    render_input inputBoth =
      [("            Name: in1 (depends on A)"),
       ("                Sources:"),
       ("                    CSV(path: PathType)")] :=
  ⟨rfl, rfl⟩

/-- C6 (amended): for every solid input of the full-detail topology
output, an input with an upstream producer is rendered as
'Name: <name> (depends on <producer>)' and one without as
'Name: <name>'; and the input's alternative sources are listed whenever
it has at least one, regardless of whether it has an upstream producer,
each rendered as '<sourceType>(<argName>: <argType>, ...)' with the
arguments joined by ', ' in their declared (insertion) order. -/
theorem C6_render_input_characterization (input_def : InputDefinition) :
    (∀ dep, input_def.depends_on = some dep →
      (render_input input_def).head? =
        some ("            Name: " ++ input_def.name ++
          " (depends on " ++ dep.name ++ ")")) ∧
    (input_def.depends_on = none →
      (render_input input_def).head? = some ("            Name: " ++ input_def.name)) ∧
    ((render_input input_def).tail =
      if input_def.sources.isEmpty then []
      else "                Sources:" ::
        input_def.sources.map (fun source_def =>
          "                    " ++ source_def.source_type ++ "(" ++
            String.intercalate (", ")
              (source_def.argument_def_dict.map
                (fun a => a.1 ++ ": " ++ a.2.dagster_type.name)) ++ ")")) := by
  refine ⟨?_, ?_, ?_⟩
  · intro dep h
    simp [render_input, h]
  · intro h
    simp [render_input, h]
  · have h : render_source = (fun source_def =>
        "                    " ++ source_def.source_type ++ "(" ++
          String.intercalate (", ")
            (source_def.argument_def_dict.map
              (fun a => a.1 ++ ": " ++ a.2.dagster_type.name)) ++ ")") := rfl
    simp [render_input, h]

/-- C6 (amended) at concrete inputs: the head line of an input with a
producer and of one without. -/
theorem C6_render_input_characterization_witness :
    (render_input inputBoth).head? =
      some ("            Name: " ++ inputBoth.name ++ " (depends on " ++
        ("A" : String) ++ ")") ∧
    (render_input ⟨"in2", none, []⟩).head? =
      some ("            Name: " ++ ("in2" : String)) :=
  ⟨(C6_render_input_characterization inputBoth).1 ⟨"A"⟩ rfl,
   (C6_render_input_characterization ⟨"in2", none, []⟩).2.1 rfl⟩

/-- takeWhile over a block that wholly satisfies the predicate followed
by a stopper returns exactly the block. -/
theorem takeWhile_all_stop {α : Type} (p : α → Bool) (l1 : List α) (x : α) (l2 : List α)
    (h1 : ∀ y ∈ l1, p y = true) (hx : p x = false) :
    List.takeWhile p (l1 ++ x :: l2) = l1 := by
  induction l1 with
  | nil => simp [List.takeWhile_cons, hx]
  | cons a as ih =>
      have ha : p a = true := h1 a (List.mem_cons_self a as)
      simp [List.takeWhile_cons, ha,
        ih (fun y hy => h1 y (List.mem_cons_of_mem a hy))]

/-- The ordered solid names emitted by a summary listing: the indented
block of lines standing between the Solids header and the closing
separator, with the four-space indent stripped. -/
def summarySolidNames (lines : List String) : List String :=
  ((lines.reverse.drop 1).takeWhile (fun l => l.data.head? == some (' '))).reverse.map
    (fun l => String.mk (l.data.drop 4))

/-- summarySolidNames over any listing of the list_command shape — any
prelude, the Solids header, a block of space-indented lines, the
separator — recovers the block, indent stripped. -/
theorem summarySolidNames_shape (pre M : List String)
    (hall : ∀ y ∈ M, (y.data.head? == some (' ')) = true) :
    summarySolidNames
        (pre ++ ("Solids: (Execution Order)" :: (M ++ ["*************"]))) =
      M.map (fun l => String.mk (l.data.drop 4)) := by
  unfold summarySolidNames
  have h1 : (pre ++ ("Solids: (Execution Order)" :: (M ++ ["*************"]))).reverse
      = "*************" ::
          (M.reverse ++ ("Solids: (Execution Order)" :: pre.reverse)) := by
    simp [List.reverse_append]
  rw [h1, List.drop_one, List.tail_cons,
    takeWhile_all_stop _ M.reverse ("Solids: (Execution Order)") pre.reverse
      (fun y hy => hall y (List.mem_reverse.mp hy)) rfl,
    List.reverse_reverse]

/-- The solid-name segment of list_command's output is exactly the
pipeline's solids' names in order. -/
theorem summarySolidNames_list_command (format_description : String → String)
    (pipeline : PipelineDefinition) :
    summarySolidNames (list_command format_description pipeline) =
      pipeline.solids.map (fun s => s.name) := by
  have hall : ∀ y ∈ pipeline.solids.map (fun s => "    " ++ s.name),
      (y.data.head? == some (' ')) = true := by
    intro y hy
    obtain ⟨s, _, rfl⟩ := List.mem_map.mp hy
    rfl
  have hshape := summarySolidNames_shape
    (("Pipeline: " ++ pipeline.name) ::
      (match pipeline.description with
       | none => []
       | some d => if d.isEmpty then [] else ["Description:", format_description d]))
    (pipeline.solids.map (fun s => "    " ++ s.name)) hall
  unfold list_command topological_solids
  rw [← List.cons_append, hshape, List.map_map]
  rfl

/-- Fixture: a pipeline P over solid A with no description. -/
def pPlain : PipelineDefinition := ⟨"P", none, [solidA]⟩

/-- Fixture: the same pipeline with a description. -/
def pWithDesc : PipelineDefinition := ⟨"P", some ("described"), [solidA]⟩

/-- Fixture: a concrete stand-in for format_description, indenting by
four spaces. -/
def fill_indent (d : String) : String := "    " ++ d

/-- C5: the claim fails on the code: summary mode does not emit only
the pipeline name and the ordered solid names — two pipelines agreeing
on both but differing in description produce different summary output,
because list_command also emits the Description block. -/
theorem C5_counterexample :
    pPlain.name = pWithDesc.name ∧
    pPlain.solids.map (fun s => s.name) = pWithDesc.solids.map (fun s => s.name) ∧
    list_command fill_indent pPlain ≠ list_command fill_indent pWithDesc := by
  refine ⟨rfl, rfl, by decide⟩

/-- C5 (amended): summary mode emits the pipeline name, the description
when present, and the ordered list of solid names — its output is
determined by exactly those three — and the solid order it emits equals
the solid order of full-detail mode: both are pipeline.solids in its
given order. -/
theorem C5_summary_content_and_order (format_description : String → String)
    (p q : PipelineDefinition)
    (hname : p.name = q.name) (hdesc : p.description = q.description)
    (hsolids : p.solids.map (fun s => s.name) = q.solids.map (fun s => s.name)) :
    list_command format_description p = list_command format_description q ∧
    summarySolidNames (list_command format_description p) =
      p.solids.map (fun s => s.name) ∧
    renderedSolidNames (print_pipeline p true) = p.solids.map (fun s => s.name) := by
  refine ⟨?_, summarySolidNames_list_command _ _, ?_⟩
  · have hmap : p.solids.map (fun s => "    " ++ s.name) =
        q.solids.map (fun s => "    " ++ s.name) := by
      have h1 := congrArg (List.map (fun n => "    " ++ n)) hsolids
      simpa [List.map_map, Function.comp] using h1
    simp [list_command, topological_solids, hname, hdesc, hmap]
  · unfold renderedSolidNames print_pipeline
    simp [List.filterMap_cons, solidHeaderName_pipeline_header,
      filterMap_solidHeaderName_flatMap]

/-- C5 (amended) at a concrete input. -/
theorem C5_summary_content_and_order_witness :
    list_command fill_indent pPlain = list_command fill_indent pPlain ∧
    summarySolidNames (list_command fill_indent pPlain) =
      pPlain.solids.map (fun s => s.name) ∧
    renderedSolidNames (print_pipeline pPlain true) =
      pPlain.solids.map (fun s => s.name) :=
  C5_summary_content_and_order fill_indent pPlain pPlain rfl rfl rfl

/-- The spec's matches relation on context tags: the two are equal as
mappings — every key/value pair of either is bound in the other. -/
def TagsMatch (tags query : List (String × String)) : Prop :=
  (∀ kv ∈ tags, List.lookup kv.1 query = some kv.2) ∧
  (∀ kv ∈ query, List.lookup kv.1 tags = some kv.2)

/-- The spec's covers relation on context tags: every key/value pair in
the query is present in the tags. -/
def TagsCover (tags query : List (String × String)) : Prop :=
  ∀ kv ∈ query, List.lookup kv.1 tags = some kv.2

/-- The boolean matcher agrees with the spec's matches relation. -/
theorem tags_match_iff (tags query : List (String × String)) :
    tags_match tags query = true ↔ TagsMatch tags query := by
  simp [tags_match, TagsMatch, List.all_eq_true]

/-- The boolean coverer agrees with the spec's covers relation. -/
theorem tags_cover_iff (tags query : List (String × String)) :
    tags_cover tags query = true ↔ TagsCover tags query := by
  simp [tags_cover, TagsCover, List.all_eq_true]

/-- C9: for every accumulated result the reporter emits, in order, the
'Metrics for <solidName>' header; then one block per input of the
result's solid, in declared input order, present only when the covering
query for that solid and input returns at least one metric, holding the
'Input <inputName>' subheader and each covered metric as
'<metricName>: <value>'; then, at a shallower indent and after all
input-scoped blocks, the metrics matching exactly the bare solid query.
The queries are the store's filter under the spec's covers and matches
relations, so they preserve store order (sublists of the store). -/
theorem C9_metrics_report_structure (result : ExecutionResult) :
    (print_metrics_for_result result =
      ("Metrics for " ++ result.name)
        :: ((result.solid.inputs.flatMap (fun input_def =>
              if (metrics_covering_context result.context
                  [("solid", result.name), ("input", input_def.name)]).isEmpty then []
              else ("    Input " ++ input_def.name)
                :: (metrics_covering_context result.context
                    [("solid", result.name), ("input", input_def.name)]).map
                      (fun metric =>
                        "        " ++ metric.metric_name ++ ": " ++ metric.value)))
            ++ (metrics_matching_context result.context [("solid", result.name)]).map
                 (fun metric => "    " ++ metric.metric_name ++ ": " ++ metric.value))) ∧
    (∀ (context : Context) (query : List (String × String)) (m : MetricRecord),
      m ∈ metrics_matching_context context query ↔
        m ∈ context.metrics ∧ TagsMatch m.context_tags query) ∧
    (∀ (context : Context) (query : List (String × String)) (m : MetricRecord),
      m ∈ metrics_covering_context context query ↔
        m ∈ context.metrics ∧ TagsCover m.context_tags query) ∧
    (∀ (context : Context) (query : List (String × String)),
      (metrics_matching_context context query).Sublist context.metrics ∧
      (metrics_covering_context context query).Sublist context.metrics) := by
  refine ⟨rfl, ?_, ?_, ?_⟩
  · intro context query m
    simp [metrics_matching_context, List.mem_filter, tags_match_iff]
  · intro context query m
    simp [metrics_covering_context, List.mem_filter, tags_cover_iff]
  · intro context query
    exact ⟨List.filter_sublist context.metrics, List.filter_sublist context.metrics⟩
